import Mathlib

/-!
Shallow embedding of the fiscal-document reconciliation engine found in
src/services/mistralService.ts of the repository, together with the data
model from the types module.  JavaScript numbers are modelled as exact
rationals; the idiom Number(x.toFixed(2)) is modelled as round-half-up to
two decimal places (ECMA toFixed picks the larger candidate on ties, i.e.
rounds ties toward positive infinity).  Fields that are optional in the
TypeScript interfaces are modelled with Option; a JS string field set to
the empty string is modelled as some "".
-/

/-- Line item of a receipt, from interface ReceiptItem in the types module.
The TypeScript field vatRate is optional, hence Option; Number(undefined)
is NaN, and the source coerces it with the pattern Number(r) or-else 0. -/
structure ReceiptItem where
  description : String
  quantity : ℚ
  unitPrice : ℚ
  totalPrice : ℚ
  category : Option String
  vatRate : Option ℚ
deriving DecidableEq

/-- Per-VAT-rate summary entry, from interface TaxBreakdown in the types
module: rate, tax amount, and base (matrah). -/
structure TaxBreakdown where
  rate : ℚ
  amount : ℚ
  base : ℚ
deriving DecidableEq

/-- Structured receipt record, from interface ReceiptData in the types
module.  Optional TypeScript fields are Option; required numeric fields
are plain rationals. -/
structure ReceiptData where
  merchantName : String
  merchantAddress : Option String
  taxNumber : Option String
  taxOffice : Option String
  sicilNumber : Option String
  date : String
  time : Option String
  items : List ReceiptItem
  subtotal : ℚ
  tax : ℚ
  taxBreakdown : Option (List TaxBreakdown)
  total : ℚ
  totalInWords : Option String
  currency : String
  paymentMethod : Option String
  invoiceNumber : Option String
  zNumber : Option String
  ekuNumber : Option String
  cashier : Option String
deriving DecidableEq

/-- Round half-up to two decimal places.  Models the source idiom
Number(v.toFixed(2)): ECMA toFixed chooses the integer n minimising
the distance of n/100 to v and on a tie takes the larger n, which is
exactly the floor of 100v + 1/2; Mathlib round is that floor. -/
def round2 (x : ℚ) : ℚ := ((round (x * 100) : ℤ) : ℚ) / 100

/-- Predicate that a rational carries at most two decimal places, i.e. it
is an integer number of hundredths.  Used to state the rounding claims. -/
def twoDecimals (x : ℚ) : Prop := (x * 100).den = 1

instance (x : ℚ) : Decidable (twoDecimals x) := by
  unfold twoDecimals; infer_instance

/-- Tax share of a tax-inclusive gross price, from line 286 of the service:
taxAmount = price * (rate / (100 + rate)). -/
def taxAmountOf (price rate : ℚ) : ℚ := price * (rate / (100 + rate))

/-- Base (net) share of a gross price, from line 287 of the service:
baseAmount = price - taxAmount. -/
def baseAmountOf (price rate : ℚ) : ℚ := price - taxAmountOf price rate

/-- Coercion of an item's totalPrice as the reconciler reads it
(Number(item.totalPrice) or-else 0; totalPrice is a required number, and
rationals have no NaN, so this is the field itself). -/
def itemPrice (it : ReceiptItem) : ℚ := it.totalPrice

/-- Coercion of an item's vatRate as the reconciler reads it
(Number(item.vatRate) or-else 0: undefined becomes NaN and then 0, a
present rate of 0 stays 0, any other present rate - including a negative
one, which is truthy in JS - is used as-is). -/
def itemRate (it : ReceiptItem) : ℚ := it.vatRate.getD 0

/-- Running sum of gross prices accumulated by the reconciler loop. -/
def calculatedTotal (items : List ReceiptItem) : ℚ :=
  (items.map itemPrice).sum

/-- Running sum of per-item tax shares accumulated by the reconciler. -/
def calculatedTax (items : List ReceiptItem) : ℚ :=
  (items.map (fun it => taxAmountOf (itemPrice it) (itemRate it))).sum

/-- Running sum of per-item base shares accumulated by the reconciler. -/
def calculatedSubtotal (items : List ReceiptItem) : ℚ :=
  (items.map (fun it => baseAmountOf (itemPrice it) (itemRate it))).sum

/-- Duplicate removal keeping the first occurrence of each element.
Models the key set of the breakdownMap object built by the reconciler:
one key per distinct rate.  (JS Object.keys enumerates canonical numeric
keys in ascending order; no claim here depends on the order of the
breakdown entries, only on their multiset, so first-occurrence order is
used as the representative enumeration.) -/
def dedupKeepFirst : List ℚ → List ℚ
  | [] => []
  | a :: l => a :: dedupKeepFirst (l.filter (fun b => decide (b ≠ a)))
termination_by l => l.length
decreasing_by
  simp only [List.length_cons]
  exact Nat.lt_succ_of_le (List.length_filter_le _ _)

/-- Accumulated base share of all items carrying a given rate
(breakdownMap[rate].base at the end of the loop). -/
def rateBase (items : List ReceiptItem) (r : ℚ) : ℚ :=
  ((items.filter (fun it => decide (itemRate it = r))).map
    (fun it => baseAmountOf (itemPrice it) (itemRate it))).sum

/-- Accumulated tax share of all items carrying a given rate
(breakdownMap[rate].amount at the end of the loop). -/
def rateAmount (items : List ReceiptItem) (r : ℚ) : ℚ :=
  ((items.filter (fun it => decide (itemRate it = r))).map
    (fun it => taxAmountOf (itemPrice it) (itemRate it))).sum

/-- Breakdown array rebuilt from the per-rate map (lines 301-308 of the
service): one entry per distinct rate, base and amount rounded to two
decimals at the end. -/
def newBreakdown (items : List ReceiptItem) : List TaxBreakdown :=
  (dedupKeepFirst (items.map itemRate)).map (fun r =>
    { rate := r
      base := round2 (rateBase items r)
      amount := round2 (rateAmount items r) })

/-- Financial reconciler, lines 267-325 of the service.  Empty items list
returns the record unchanged; otherwise totals are recomputed from items,
the record's own total/tax/subtotal are kept only when positive, the
record's own taxBreakdown is kept only when non-empty, and the three
final amounts are rounded to two decimals. -/
def recalculateFinancials (data : ReceiptData) : ReceiptData :=
  if data.items = [] then data
  else
    let finalTotal := if data.total > 0 then data.total else calculatedTotal data.items
    let finalTax := if data.tax > 0 then data.tax else calculatedTax data.items
    let finalSubtotal :=
      if data.subtotal > 0 then data.subtotal else calculatedSubtotal data.items
    { data with
      total := round2 finalTotal
      tax := round2 finalTax
      subtotal := round2 finalSubtotal
      taxBreakdown :=
        match data.taxBreakdown with
        | some l => if l = [] then some (newBreakdown data.items) else some l
        | none => some (newBreakdown data.items) }

/-!
Character-level model of the JavaScript string operations used by the
regex fallback extractor parseViaRegex (lines 330-387 of the service).
The regexes of the source are compiled by hand into deterministic
scanners; determinism is justified because in each pattern the adjacent
character classes are disjoint, so the backtracking engine has a unique
successful decomposition, and lazy/greedy quantifiers pin down which
split the engine reports.  JS whitespace is modelled by its ASCII portion
(all inputs appearing in the claims are within it).
-/

/-- ASCII portion of the JS regex class backslash-s and of String.trim. -/
def jsWs (c : Char) : Bool :=
  c = ' ' || c = '\t' || c = '\n' || c = '\r' || c.toNat = 11 || c.toNat = 12

/-- Character class of the capture group in the totals and price regexes:
a digit, a comma, or a dot. -/
def isNumChar (c : Char) : Bool := c.isDigit || c = ',' || c = '.'

/-- Currency symbols accepted by the optional trailing group. -/
def isCurrency (c : Char) : Bool := c = '$' || c = '€' || c = '₺'

/-- Skip class between the totals keyword and the number: whitespace,
colon, or star. -/
def isSkipChar (c : Char) : Bool := jsWs c || c = ':' || c = '*'

/-- JS String.prototype.trim on a character list. -/
def trimChars (cs : List Char) : List Char :=
  ((cs.dropWhile jsWs).reverse.dropWhile jsWs).reverse

/-- JS String.prototype.split with separator a newline. -/
def splitNl : List Char → List (List Char)
  | [] => [[]]
  | c :: rest =>
    match splitNl rest with
    | [] => [[]]
    | l :: ls => if c = '\n' then [] :: l :: ls else (c :: l) :: ls

/-- Numeric value of a digit string (most significant digit first). -/
def digitsVal (cs : List Char) : ℕ :=
  cs.foldl (fun n c => 10 * n + (c.toNat - 48)) 0

/-- JS parseFloat restricted to the character class of the captures
(digits, dot, comma): longest prefix of the shape digits [dot digits] is
parsed; none models NaN.  A sign, exponent or leading whitespace cannot
occur in a capture of these regexes. -/
def parseFloatQ (cs : List Char) : Option ℚ :=
  let ip := cs.takeWhile Char.isDigit
  let rest := cs.drop ip.length
  match rest with
  | '.' :: r =>
    let fp := r.takeWhile Char.isDigit
    if ip = [] && fp = [] then none
    else some ((digitsVal ip : ℚ) + (digitsVal fp : ℚ) / (10 : ℚ) ^ fp.length)
  | _ => if ip = [] then none else some ((digitsVal ip : ℚ))

/-- JS String.prototype.replace of the first comma by a dot (the source
calls replace with a non-global comma pattern). -/
def replaceFirstComma : List Char → List Char
  | [] => []
  | c :: r => if c = ',' then '.' :: r else c :: replaceFirstComma r

/-- Case-insensitive match of an uppercase keyword against a prefix of the
input, returning the remainder on success.  Models the i-flag by the
ASCII upper-casing canonicalisation of the regex engine. -/
def matchKeywordCI : List Char → List Char → Option (List Char)
  | [], cs => some cs
  | _ :: _, [] => none
  | k :: ks, c :: cs => if c.toUpper = k then matchKeywordCI ks cs else none

/-- Attempt of the totals regex at the current position: one of the
keywords TOPLAM, TOTAL, TUTAR, AMOUNT (tried in the alternation order of
the source), then the skip class star, then at least one numeric
character (greedy).  The skip and numeric classes are disjoint, so no
backtracking is possible and the maximal runs are the unique match. -/
def tryTotalAt (cs : List Char) : Option (List Char) :=
  let afterKw :=
    match matchKeywordCI "TOPLAM".data cs with
    | some r => some r
    | none =>
      match matchKeywordCI "TOTAL".data cs with
      | some r => some r
      | none =>
        match matchKeywordCI "TUTAR".data cs with
        | some r => some r
        | none => matchKeywordCI "AMOUNT".data cs
  match afterKw with
  | none => none
  | some rest =>
    let num := (rest.dropWhile isSkipChar).takeWhile isNumChar
    if num = [] then none else some num

/-- Leftmost match of the totals regex over the whole text, returning the
numeric capture group. -/
def findTotalCapture : List Char → Option (List Char)
  | [] => none
  | c :: rest =>
    match tryTotalAt (c :: rest) with
    | some cap => some cap
    | none => findTotalCapture rest

/-- First alternative of the date regex at the current position:
two digits, separator, two digits, separator, then greedily two to four
digits; returns the full matched text. -/
def tryDateAt1 (cs : List Char) : Option (List Char) :=
  match cs with
  | d1 :: d2 :: s1 :: d3 :: d4 :: rest =>
    if d1.isDigit && d2.isDigit && (s1 = '.' || s1 = '/' || s1 = '-')
        && d3.isDigit && d4.isDigit then
      match rest with
      | s2 :: tail =>
        if s2 = '.' || s2 = '/' || s2 = '-' then
          let run := (tail.takeWhile Char.isDigit).take 4
          if run.length ≥ 2 then some ([d1, d2, s1, d3, d4, s2] ++ run) else none
        else none
      | [] => none
    else none
  | _ => none

/-- Second alternative of the date regex: four digits, separator, two
digits, separator, two digits. -/
def tryDateAt2 (cs : List Char) : Option (List Char) :=
  match cs with
  | a :: b :: c :: d :: s1 :: e :: f :: s2 :: g :: h :: _ =>
    if a.isDigit && b.isDigit && c.isDigit && d.isDigit
        && (s1 = '.' || s1 = '/' || s1 = '-')
        && e.isDigit && f.isDigit
        && (s2 = '.' || s2 = '/' || s2 = '-')
        && g.isDigit && h.isDigit then
      some [a, b, c, d, s1, e, f, s2, g, h]
    else none
  | _ => none

/-- Leftmost match of the date regex, alternatives tried in source
order at each position. -/
def findDate : List Char → Option (List Char)
  | [] => none
  | c :: rest =>
    match tryDateAt1 (c :: rest) with
    | some m => some m
    | none =>
      match tryDateAt2 (c :: rest) with
      | some m => some m
      | none => findDate rest

/-- Removal of a leading table pipe and the whitespace after it
(replace of the anchored pipe-whitespace pattern by the empty string). -/
def stripLeadPipe (cs : List Char) : List Char :=
  match cs with
  | '|' :: r => r.dropWhile jsWs
  | _ => cs

/-- Removal of a trailing table pipe and the whitespace before it. -/
def stripTrailPipe (cs : List Char) : List Char :=
  match cs.reverse with
  | '|' :: r => (r.dropWhile jsWs).reverse
  | _ => cs

/-- Tail of the item-line regex after the lazy description: at least one
whitespace, then at least one numeric character (greedy), then optional
whitespace and one optional currency symbol, then end of line.  All
classes involved are pairwise disjoint, so the maximal-run reading is the
unique successful one; returns the numeric capture. -/
def matchTailNum (cs : List Char) : Option (List Char) :=
  match cs with
  | [] => none
  | c :: rest =>
    if jsWs c then
      let afterWs := rest.dropWhile jsWs
      let num := afterWs.takeWhile isNumChar
      if num = [] then none
      else
        match (afterWs.drop num.length).dropWhile jsWs with
        | [] => some num
        | [d] => if isCurrency d then some num else none
        | _ => none
    else none

/-- Search loop of the lazy description: the shortest non-empty prefix
whose remainder matches the tail pattern wins.  descRev is the reversed
description collected so far. -/
def priceLineGo (descRev rest : List Char) : Option (List Char × List Char) :=
  match matchTailNum rest with
  | some num => some (descRev.reverse, num)
  | none =>
    match rest with
    | [] => none
    | c :: rest2 => priceLineGo (c :: descRev) rest2

/-- Match of the item-line regex against a cleaned line: lazy non-empty
description, then the tail pattern; returns description and numeric
capture. -/
def priceLineMatch (cs : List Char) : Option (List Char × List Char) :=
  match cs with
  | [] => none
  | c :: rest => priceLineGo [c] rest

/-- Case-insensitive substring test of one keyword. -/
def substrCI (pat : List Char) : List Char → Bool
  | [] => (matchKeywordCI pat []).isSome
  | c :: rest =>
    match matchKeywordCI pat (c :: rest) with
    | some _ => true
    | none => substrCI pat rest

/-- Summary-row filter of the extractor: the description is skipped when
it contains (case-insensitively) toplam, kdv, subtotal, total, or
ara-toplam; keywords are stored upper-case because the matcher
canonicalises by upper-casing. -/
def isSummaryDesc (desc : List Char) : Bool :=
  substrCI "TOPLAM".data desc || substrCI "KDV".data desc
    || substrCI "SUBTOTAL".data desc || substrCI "TOTAL".data desc
    || substrCI "ARA TOPLAM".data desc

/-- Conversion of one scanned line into a line item (body of the forEach
at lines 351-362): clean the pipes, match the price-line regex, trim the
description, drop summary rows, parse the price, keep it only when it is
a number strictly greater than zero. -/
def lineToItem (line : List Char) : Option ReceiptItem :=
  let clean := stripTrailPipe (stripLeadPipe line)
  match priceLineMatch clean with
  | none => none
  | some (descRaw, num) =>
    let desc := trimChars descRaw
    if isSummaryDesc desc then none
    else
      match parseFloatQ (replaceFirstComma num) with
      | none => none
      | some p =>
        if 0 < p then
          some { description := String.mk desc, quantity := 1, unitPrice := p
                 totalPrice := p, category := some "General", vatRate := some 20 }
        else none

/-- Non-empty lines of the input text (split on newline, blank lines
filtered out by the trim test). -/
def nonEmptyLines (text : String) : List (List Char) :=
  (splitNl text.data).filter (fun l => decide (trimChars l ≠ []))

/-- Lines scanned for items: slice(1, -3), i.e. everything except the
first line and the last three. -/
def scannedLines (text : String) : List (List Char) :=
  ((nonEmptyLines text).drop 1).take ((nonEmptyLines text).length - 4)

/-- Items extracted by the regex scan of the middle lines. -/
def itemsViaRegex (text : String) : List ReceiptItem :=
  (scannedLines text).filterMap lineToItem

/-- Total detected by the totals regex, with the NaN outcome of parseFloat
folded to 0: the JS variable total starts at 0, may be overwritten by a
NaN parse, and is only ever read through the comparison total > 0, for
which NaN and 0 behave identically. -/
def totalViaRegex (text : String) : ℚ :=
  ((findTotalCapture text.data).bind (fun cap =>
    parseFloatQ (replaceFirstComma cap))).getD 0

/-- Merchant name: first non-empty line with leading markup characters
(hash or star, at least one, plus following whitespace) stripped. -/
def merchantViaRegex (text : String) : String :=
  match nonEmptyLines text with
  | [] => ""
  | l :: _ =>
    String.mk (if l.head? = some '#' || l.head? = some '*' then
      (l.dropWhile (fun c => c = '#' || c = '*')).dropWhile jsWs
    else l)

/-- Date found by the date regex, or the empty string. -/
def dateViaRegex (text : String) : String :=
  match findDate text.data with
  | some m => String.mk m
  | none => ""

/-- Placeholder item synthesized when no line matched (line 376). -/
def placeholderItem (finalTotal : ℚ) : ReceiptItem :=
  { description := "Ürün Bulunamadı", quantity := 1, unitPrice := finalTotal
    totalPrice := finalTotal, category := none, vatRate := some 20 }

/-- Regex fallback extractor, lines 330-387 of the service. -/
def parseViaRegex (text : String) : ReceiptData :=
  let items := itemsViaRegex text
  let total := totalViaRegex text
  let calcSubtotal := (items.map (fun it => it.totalPrice)).sum
  let finalTotal := if total > 0 then total else calcSubtotal
  let tax := finalTotal * (18 / 100)
  let subtotal := finalTotal - tax
  { merchantName := merchantViaRegex text
    merchantAddress := some ""
    taxNumber := some ""
    taxOffice := none
    sicilNumber := none
    date := dateViaRegex text
    time := some ""
    items := if items = [] then [placeholderItem finalTotal] else items
    subtotal := subtotal
    tax := tax
    taxBreakdown := none
    total := finalTotal
    totalInWords := some ""
    currency := "₺"
    paymentMethod := some ""
    invoiceNumber := some ""
    zNumber := some ""
    ekuNumber := some ""
    cashier := none }

/-- Outcome of the awaited structured-generation call in
parseReceiptWithGemini, abstracting the network: the call may throw, the
response text may be empty, the JSON parse may throw, or a record is
parsed. -/
inductive AiOutcome
  | thrown
  | emptyText
  | badJson
  | parsed (d : ReceiptData)
deriving DecidableEq

/-- Control flow of parseReceiptWithGemini (lines 389-474): a blank
credential selects the regex fallback directly; a parsed response is
passed through the reconciler; every failure outcome falls back to the
regex extractor (the catch clause). -/
def parseReceiptWithGemini (markdownText apiKey : String)
    (outcome : AiOutcome) : ReceiptData :=
  if trimChars apiKey.data = [] then parseViaRegex markdownText
  else
    match outcome with
    | .parsed d => recalculateFinancials d
    | _ => parseViaRegex markdownText

attribute [ext] ReceiptItem TaxBreakdown ReceiptData

/-!
Concrete inputs used by the example clauses, witnesses and
counterexamples below.
-/

/-- Record builder fixing the non-financial fields to innocuous values. -/
def mkRecord (items : List ReceiptItem) (subtotal tax total : ℚ)
    (bd : Option (List TaxBreakdown)) : ReceiptData :=
  { merchantName := "M", merchantAddress := none, taxNumber := none,
    taxOffice := none, sicilNumber := none, date := "2024-05-22",
    time := none, items := items, subtotal := subtotal, tax := tax,
    taxBreakdown := bd, total := total, totalInWords := none,
    currency := "₺", paymentMethod := none, invoiceNumber := none,
    zNumber := none, ekuNumber := none, cashier := none }

/-- Single item of gross 100 at rate 20. -/
def item100at20 : ReceiptItem :=
  { description := "X", quantity := 1, unitPrice := 100, totalPrice := 100,
    category := none, vatRate := some 20 }

/-- Record of the override-policy example: one item of gross 100 at rate
20, all three totals zero. -/
def overrideRecord : ReceiptData := mkRecord [item100at20] 0 0 0 none

/-- Record whose positive totals must be kept by the reconciler. -/
def keepRecord : ReceiptData := mkRecord [item100at20] 50 9 60 none

/-- Item with an absent vatRate. -/
def noRateItem : ReceiptItem :=
  { description := "Z", quantity := 1, unitPrice := 10, totalPrice := 10,
    category := none, vatRate := none }

/-- Item with a negative vatRate. -/
def negRateItem : ReceiptItem :=
  { description := "N", quantity := 1, unitPrice := 100, totalPrice := 100,
    category := none, vatRate := some (-50) }

/-- Record containing only the negative-rate item. -/
def negRateRecord : ReceiptData := mkRecord [negRateItem] 0 0 0 none

/-- Item of gross 100 at rate 0. -/
def item100at0 : ReceiptItem :=
  { description := "A", quantity := 1, unitPrice := 100, totalPrice := 100,
    category := none, vatRate := some 0 }

/-- Record with a positive total below half a cent (rounds to 0). -/
def fragileRecord : ReceiptData := mkRecord [item100at0] 0 0 (1/250) none

/-- Record carrying a non-empty input breakdown inconsistent with its
items. -/
def keptBreakdownRecord : ReceiptData :=
  mkRecord [item100at20] 0 0 0 (some [TaxBreakdown.mk 20 999 999])

/-- Item of gross 50 at rate 10. -/
def item50at10 : ReceiptItem :=
  { description := "B", quantity := 1, unitPrice := 50, totalPrice := 50,
    category := none, vatRate := some 10 }

/-- Record with two items at distinct rates and no supplied totals. -/
def twoRateRecord : ReceiptData := mkRecord [item100at20, item50at10] 0 0 0 none

/-- Record with an empty items list and unrounded totals. -/
def emptyItemsRecord : ReceiptData := mkRecord [] (3/1000) 0 0 none

/-- OCR text of the end-to-end fallback scenario of the spec. -/
def scenarioText : String :=
  "MARKET\nSÜT 2 Adet 35,50 71,00\nTOPLAM: 71,00\nA\nB\nC"

/-- Item the fallback extractor produces from the scenario item line: the
lazy description capture runs to the last whitespace before the trailing
price, so quantity and unit price remain inside the description. -/
def sutItem : ReceiptItem :=
  { description := "SÜT 2 Adet 35,50", quantity := 1, unitPrice := 71,
    totalPrice := 71, category := some "General", vatRate := some 20 }

/-- OCR text with one plain matching item line. -/
def itemLineText : String := "M\nELMA 5,50\nTOPLAM: 5,50\nA\nB\nC"

/-- Item the fallback extractor produces from the plain item line. -/
def elmaItem : ReceiptItem :=
  { description := "ELMA", quantity := 1, unitPrice := 11/2,
    totalPrice := 11/2, category := some "General", vatRate := some 20 }

/-!
Helper lemmas about rounding, the decomposition, and the reconciler.
-/

theorem round2_twoDecimals (x : ℚ) : twoDecimals (round2 x) := by
  have h : (((round (x * 100) : ℤ) : ℚ) / 100 * 100) = ((round (x * 100) : ℤ) : ℚ) :=
    div_mul_cancel₀ _ (by norm_num)
  unfold twoDecimals round2
  rw [h, Rat.den_intCast]

theorem round2_round2 (x : ℚ) : round2 (round2 x) = round2 x := by
  unfold round2
  have h : (((round (x * 100) : ℤ) : ℚ) / 100 * 100) = ((round (x * 100) : ℤ) : ℚ) :=
    div_mul_cancel₀ _ (by norm_num)
  rw [h, round_intCast]

theorem round2_nonneg {x : ℚ} (h : 0 ≤ x) : 0 ≤ round2 x := by
  unfold round2
  have h1 : (0 : ℤ) ≤ round (x * 100) := by
    rw [round_eq]
    exact Int.floor_nonneg.mpr (by linarith)
  have h2 : (0 : ℚ) ≤ ((round (x * 100) : ℤ) : ℚ) := by exact_mod_cast h1
  linarith

theorem abs_round2_sub (x : ℚ) : |round2 x - x| ≤ 1 / 200 := by
  have h : |x * 100 - round (x * 100)| ≤ 1 / 2 := abs_sub_round (x * 100)
  have h2 : round2 x - x = (((round (x * 100) : ℤ) : ℚ) - x * 100) / 100 := by
    unfold round2; ring
  rw [h2, abs_div, abs_sub_comm]
  have h100 : |(100 : ℚ)| = 100 := by norm_num
  rw [h100]
  linarith

theorem base_add_tax (p r : ℚ) : baseAmountOf p r + taxAmountOf p r = p := by
  unfold baseAmountOf; ring

theorem taxAmountOf_rate_zero (p : ℚ) : taxAmountOf p 0 = 0 := by
  unfold taxAmountOf; norm_num

theorem taxAmountOf_nonneg {p r : ℚ} (hp : 0 ≤ p) (hr : 0 ≤ r) :
    0 ≤ taxAmountOf p r := by
  unfold taxAmountOf
  have hd : (0 : ℚ) < 100 + r := by linarith
  exact mul_nonneg hp (div_nonneg hr (le_of_lt hd))

theorem taxAmountOf_le_price {p r : ℚ} (hp : 0 ≤ p) (hr : 0 ≤ r) :
    taxAmountOf p r ≤ p := by
  unfold taxAmountOf
  have hd : (0 : ℚ) < 100 + r := by linarith
  have h1 : r / (100 + r) ≤ 1 := (div_le_one hd).mpr (by linarith)
  calc p * (r / (100 + r)) ≤ p * 1 := mul_le_mul_of_nonneg_left h1 hp
    _ = p := mul_one p

theorem baseAmountOf_nonneg {p r : ℚ} (hp : 0 ≤ p) (hr : 0 ≤ r) :
    0 ≤ baseAmountOf p r := by
  unfold baseAmountOf
  have := taxAmountOf_le_price hp hr
  linarith

theorem recalc_empty (d : ReceiptData) (h : d.items = []) :
    recalculateFinancials d = d := by
  unfold recalculateFinancials
  rw [if_pos h]

theorem recalc_items (d : ReceiptData) :
    (recalculateFinancials d).items = d.items := by
  unfold recalculateFinancials
  split <;> rfl

theorem recalc_frame (d : ReceiptData) :
    (recalculateFinancials d).merchantName = d.merchantName ∧
    (recalculateFinancials d).merchantAddress = d.merchantAddress ∧
    (recalculateFinancials d).taxNumber = d.taxNumber ∧
    (recalculateFinancials d).taxOffice = d.taxOffice ∧
    (recalculateFinancials d).sicilNumber = d.sicilNumber ∧
    (recalculateFinancials d).date = d.date ∧
    (recalculateFinancials d).time = d.time ∧
    (recalculateFinancials d).items = d.items ∧
    (recalculateFinancials d).totalInWords = d.totalInWords ∧
    (recalculateFinancials d).currency = d.currency ∧
    (recalculateFinancials d).paymentMethod = d.paymentMethod ∧
    (recalculateFinancials d).invoiceNumber = d.invoiceNumber ∧
    (recalculateFinancials d).zNumber = d.zNumber ∧
    (recalculateFinancials d).ekuNumber = d.ekuNumber ∧
    (recalculateFinancials d).cashier = d.cashier := by
  unfold recalculateFinancials
  split <;> exact ⟨rfl, rfl, rfl, rfl, rfl, rfl, rfl, rfl, rfl, rfl, rfl,
    rfl, rfl, rfl, rfl⟩

theorem recalc_total (d : ReceiptData) (h : d.items ≠ []) :
    (recalculateFinancials d).total =
      round2 (if d.total > 0 then d.total else calculatedTotal d.items) := by
  unfold recalculateFinancials
  rw [if_neg h]

theorem recalc_tax (d : ReceiptData) (h : d.items ≠ []) :
    (recalculateFinancials d).tax =
      round2 (if d.tax > 0 then d.tax else calculatedTax d.items) := by
  unfold recalculateFinancials
  rw [if_neg h]

theorem recalc_subtotal (d : ReceiptData) (h : d.items ≠ []) :
    (recalculateFinancials d).subtotal =
      round2 (if d.subtotal > 0 then d.subtotal
        else calculatedSubtotal d.items) := by
  unfold recalculateFinancials
  rw [if_neg h]

theorem recalc_breakdown (d : ReceiptData) (h : d.items ≠ []) :
    (recalculateFinancials d).taxBreakdown =
      match d.taxBreakdown with
      | some l => if l = [] then some (newBreakdown d.items) else some l
      | none => some (newBreakdown d.items) := by
  unfold recalculateFinancials
  rw [if_neg h]

theorem mem_dedupKeepFirst (l : List ℚ) (x : ℚ) :
    x ∈ dedupKeepFirst l ↔ x ∈ l := by
  induction l using dedupKeepFirst.induct with
  | case1 => simp [dedupKeepFirst]
  | case2 a t ih =>
    rw [dedupKeepFirst]
    simp only [decide_not, List.mem_cons, List.mem_filter, decide_eq_true_eq, ne_eq,
      Bool.not_eq_true', decide_eq_false_iff_not] at ih ⊢
    by_cases hx : x = a
    · simp [hx]
    · simp [hx, ih]

theorem nodup_dedupKeepFirst (l : List ℚ) : (dedupKeepFirst l).Nodup := by
  induction l using dedupKeepFirst.induct with
  | case1 => simp [dedupKeepFirst]
  | case2 a t ih =>
    rw [dedupKeepFirst]
    refine List.nodup_cons.mpr ⟨?_, ih⟩
    intro hmem
    have := (mem_dedupKeepFirst _ _).mp hmem
    simp [List.mem_filter] at this

theorem dedupKeepFirst_ne_nil (l : List ℚ) (h : l ≠ []) :
    dedupKeepFirst l ≠ [] := by
  cases l with
  | nil => exact absurd rfl h
  | cons a t => rw [dedupKeepFirst]; simp

theorem sum_map_filter_or {α : Type} (l : List α) (g : α → ℚ) (p q : α → Bool)
    (h : ∀ x ∈ l, ¬(p x = true ∧ q x = true)) :
    ((l.filter p).map g).sum + ((l.filter q).map g).sum
      = ((l.filter (fun x => p x || q x)).map g).sum := by
  induction l with
  | nil => simp
  | cons a t ih =>
    have ht : ∀ x ∈ t, ¬(p x = true ∧ q x = true) :=
      fun x hx => h x (List.mem_cons_of_mem a hx)
    have ihh := ih ht
    cases hp : p a <;> cases hq : q a
    · simp only [List.filter_cons, hp, hq]
      simpa using ihh
    · simp [List.filter_cons, hp, hq]
      linarith [ihh]
    · simp [List.filter_cons, hp, hq]
      linarith [ihh]
    · exact absurd ⟨hp, hq⟩ (h a (List.mem_cons_self a t))

theorem sum_rates {α : Type} (l : List α) (g : α → ℚ) (f : α → ℚ) :
    ∀ (R : List ℚ), R.Nodup →
      (R.map (fun r => ((l.filter (fun it => decide (f it = r))).map g).sum)).sum
        = ((l.filter (fun it => decide (f it ∈ R))).map g).sum := by
  intro R
  induction R with
  | nil => simp
  | cons r t ih =>
    intro hnd
    obtain ⟨hr, hnd2⟩ := List.nodup_cons.mp hnd
    simp only [List.map_cons, List.sum_cons]
    rw [ih hnd2]
    have hfun : (fun it => decide (f it ∈ r :: t))
        = fun it => (decide (f it = r) || decide (f it ∈ t)) := by
      funext x
      by_cases h1 : f x = r <;> by_cases h2 : f x ∈ t <;>
        simp [List.mem_cons, h1, h2]
    rw [hfun]
    refine sum_map_filter_or l g _ _ ?_
    intro x _ hx
    obtain ⟨h1, h2⟩ := hx
    rw [decide_eq_true_eq] at h1 h2
    exact hr (h1 ▸ h2)

theorem listSum_map_nonneg {α : Type} (l : List α) (g : α → ℚ)
    (h : ∀ x ∈ l, 0 ≤ g x) : 0 ≤ (l.map g).sum := by
  induction l with
  | nil => simp
  | cons a t ih =>
    simp only [List.map_cons, List.sum_cons]
    have h1 := h a (List.mem_cons_self a t)
    have h2 := ih (fun x hx => h x (List.mem_cons_of_mem a hx))
    linarith

theorem abs_sum_round2 (R : List ℚ) (s : ℚ → ℚ) :
    |(R.map (fun r => round2 (s r))).sum - (R.map s).sum|
      ≤ (R.length : ℚ) / 200 := by
  induction R with
  | nil => simp
  | cons r t ih =>
    simp only [List.map_cons, List.sum_cons, List.length_cons]
    have h1 := abs_round2_sub (s r)
    have h2 : |(round2 (s r) + (t.map (fun r => round2 (s r))).sum)
        - (s r + (t.map s).sum)|
        ≤ |round2 (s r) - s r|
          + |(t.map (fun r => round2 (s r))).sum - (t.map s).sum| := by
      have := abs_add (round2 (s r) - s r)
        ((t.map (fun r => round2 (s r))).sum - (t.map s).sum)
      calc |(round2 (s r) + (t.map (fun r => round2 (s r))).sum)
          - (s r + (t.map s).sum)|
          = |(round2 (s r) - s r)
            + ((t.map (fun r => round2 (s r))).sum - (t.map s).sum)| := by
            ring_nf
        _ ≤ _ := this
    have h3 : ((t.length : ℚ) + 1) / 200 = (t.length : ℚ) / 200 + 1 / 200 := by
      ring
    push_cast
    rw [h3]
    linarith

theorem sum_over_dedup {g : ReceiptItem → ℚ} (items : List ReceiptItem) :
    ((dedupKeepFirst (items.map itemRate)).map (fun r =>
      ((items.filter (fun it => decide (itemRate it = r))).map g).sum)).sum
      = (items.map g).sum := by
  rw [sum_rates items g itemRate _ (nodup_dedupKeepFirst _)]
  have hself : items.filter (fun it =>
      decide (itemRate it ∈ dedupKeepFirst (items.map itemRate))) = items := by
    apply List.filter_eq_self.mpr
    intro a ha
    exact decide_eq_true ((mem_dedupKeepFirst _ _).mpr
      (List.mem_map_of_mem itemRate ha))
  rw [hself]

/-- Items field of the fallback record: the scanned items, or the single
placeholder when none matched. -/
theorem parseViaRegex_items_eq (text : String) :
    (parseViaRegex text).items = if itemsViaRegex text = []
      then [placeholderItem (if totalViaRegex text > 0 then totalViaRegex text
        else ((itemsViaRegex text).map (fun it => it.totalPrice)).sum)]
      else itemsViaRegex text := rfl

/-- Total field of the fallback record. -/
theorem parseViaRegex_total_eq (text : String) :
    (parseViaRegex text).total = if totalViaRegex text > 0 then totalViaRegex text
      else ((itemsViaRegex text).map (fun it => it.totalPrice)).sum := rfl

/-- Tax field of the fallback record: a flat 18 percent of the total. -/
theorem parseViaRegex_tax_eq (text : String) :
    (parseViaRegex text).tax = (parseViaRegex text).total * (18 / 100) := rfl

/-- Subtotal field of the fallback record. -/
theorem parseViaRegex_subtotal_eq (text : String) :
    (parseViaRegex text).subtotal
      = (parseViaRegex text).total - (parseViaRegex text).tax := rfl

/-- Computation: the scenario text yields exactly the one scanned item. -/
theorem itemsViaRegex_scenario : itemsViaRegex scenarioText = [sutItem] := by
  set_option maxRecDepth 2048 in with_unfolding_all decide

/-- Computation: the totals regex reads 71 from the scenario text. -/
theorem totalViaRegex_scenario : totalViaRegex scenarioText = 71 := by
  set_option maxRecDepth 2048 in with_unfolding_all decide

/-- Computation: the plain item line yields exactly one item. -/
theorem itemsViaRegex_itemLine : itemsViaRegex itemLineText = [elmaItem] := by
  set_option maxRecDepth 2048 in with_unfolding_all decide

/-- Second application of a keep-if-positive-then-round field resolution
is the identity, provided a kept positive input does not round to a
non-positive value. -/
theorem round2_step (v c : ℚ) (h : v > 0 → round2 v > 0) :
    round2 (if round2 (if v > 0 then v else c) > 0
      then round2 (if v > 0 then v else c) else c)
    = round2 (if v > 0 then v else c) := by
  by_cases hv : v > 0
  · rw [if_pos hv, if_pos (h hv), round2_round2]
  · rw [if_neg hv]
    by_cases hc : round2 c > 0
    · rw [if_pos hc, round2_round2]
    · rw [if_neg hc]

/-- The rebuilt breakdown of a non-empty items list is non-empty. -/
theorem newBreakdown_ne_nil (items : List ReceiptItem) (h : items ≠ []) :
    newBreakdown items ≠ [] := by
  have h1 : items.map itemRate ≠ [] := fun he => h (List.map_eq_nil_iff.mp he)
  have h2 := dedupKeepFirst_ne_nil _ h1
  intro hmap
  exact h2 (List.map_eq_nil_iff.mp hmap)

/-!
Claim theorems.
-/

/-- C5: for every grossPrice at least 0 and rate at least 0, the tax
decomposition satisfies baseAmount + taxAmount = gross within 1e-9 (here
it holds exactly, since baseAmount is defined as gross minus taxAmount),
and rate 0 gives taxAmount 0 and baseAmount equal to the gross price. -/
theorem decompose_inverse_law (gross rate : ℚ) (_hg : 0 ≤ gross)
    (_hr : 0 ≤ rate) :
    |baseAmountOf gross rate + taxAmountOf gross rate - gross|
      ≤ 1 / 1000000000
    ∧ (rate = 0 → taxAmountOf gross rate = 0
        ∧ baseAmountOf gross rate = gross) := by
  constructor
  · rw [base_add_tax]
    simp
  · intro h
    subst h
    refine ⟨taxAmountOf_rate_zero gross, ?_⟩
    rw [baseAmountOf, taxAmountOf_rate_zero]
    ring

/-- Witness for C5 at gross 50 and rate 0 (the zero-rate edge case of the
spec). -/
theorem decompose_inverse_law_witness :
    |baseAmountOf 50 0 + taxAmountOf 50 0 - 50| ≤ 1 / 1000000000
    ∧ ((0 : ℚ) = 0 → taxAmountOf 50 0 = 0 ∧ baseAmountOf 50 0 = 50) :=
  decompose_inverse_law 50 0 (by norm_num) (le_refl 0)

/-- C9: the reconciler changes at most total, tax, subtotal and
taxBreakdown; items and every merchant, temporal, fiscal and textual
field are returned unchanged, and a record with an empty items list is
returned unchanged as a whole. -/
theorem reconciler_frame_effect (d : ReceiptData) :
    ((recalculateFinancials d).items = d.items
      ∧ (recalculateFinancials d).merchantName = d.merchantName
      ∧ (recalculateFinancials d).merchantAddress = d.merchantAddress
      ∧ (recalculateFinancials d).date = d.date
      ∧ (recalculateFinancials d).time = d.time
      ∧ (recalculateFinancials d).currency = d.currency
      ∧ (recalculateFinancials d).paymentMethod = d.paymentMethod
      ∧ (recalculateFinancials d).totalInWords = d.totalInWords
      ∧ (recalculateFinancials d).taxNumber = d.taxNumber
      ∧ (recalculateFinancials d).taxOffice = d.taxOffice
      ∧ (recalculateFinancials d).sicilNumber = d.sicilNumber
      ∧ (recalculateFinancials d).invoiceNumber = d.invoiceNumber
      ∧ (recalculateFinancials d).zNumber = d.zNumber
      ∧ (recalculateFinancials d).ekuNumber = d.ekuNumber
      ∧ (recalculateFinancials d).cashier = d.cashier)
    ∧ (d.items = [] → recalculateFinancials d = d) := by
  obtain ⟨h1, h2, h3, h4, h5, h6, h7, h8, h9, h10, h11, h12, h13, h14, h15⟩ :=
    recalc_frame d
  exact ⟨⟨recalc_items d, h1, h2, h6, h7, h10, h11, h9, h3, h4, h5, h12,
    h13, h14, h15⟩, recalc_empty d⟩

/-- Witness for C9: the empty-items record is a fixed point of the
reconciler. -/
theorem reconciler_frame_effect_witness :
    recalculateFinancials emptyItemsRecord = emptyItemsRecord :=
  (reconciler_frame_effect emptyItemsRecord).2 rfl

/-- C3: the reconciler resolves each of total, tax and subtotal with the
override-if-absent policy (keep the record's own value only when
positive, else use the calculated one, then round), and on the concrete
record with one item of gross 100 at rate 20 and all totals 0 it yields
total 100, tax 16.67 and subtotal 83.33. -/
theorem override_if_absent_policy (d : ReceiptData) (h : d.items ≠ []) :
    (recalculateFinancials d).total
        = round2 (if d.total > 0 then d.total else calculatedTotal d.items)
    ∧ (recalculateFinancials d).tax
        = round2 (if d.tax > 0 then d.tax else calculatedTax d.items)
    ∧ (recalculateFinancials d).subtotal
        = round2 (if d.subtotal > 0 then d.subtotal
            else calculatedSubtotal d.items)
    ∧ (recalculateFinancials overrideRecord).total = 100
    ∧ (recalculateFinancials overrideRecord).tax = 1667 / 100
    ∧ (recalculateFinancials overrideRecord).subtotal = 8333 / 100 := by
  have hne : overrideRecord.items ≠ [] := by decide
  refine ⟨recalc_total d h, recalc_tax d h, recalc_subtotal d h, ?_, ?_, ?_⟩
  · rw [recalc_total _ hne]
    norm_num [overrideRecord, mkRecord, item100at20, calculatedTotal,
      itemPrice, round2, round_eq]
  · rw [recalc_tax _ hne]
    norm_num [overrideRecord, mkRecord, item100at20, calculatedTax,
      itemPrice, itemRate, taxAmountOf, round2, round_eq]
  · rw [recalc_subtotal _ hne]
    norm_num [overrideRecord, mkRecord, item100at20, calculatedSubtotal,
      itemPrice, itemRate, baseAmountOf, taxAmountOf, round2, round_eq]

/-- Witness for C3 at a record whose positive totals are kept. -/
theorem override_if_absent_policy_witness :
    (recalculateFinancials keepRecord).total
      = round2 (if keepRecord.total > 0 then keepRecord.total
          else calculatedTotal keepRecord.items) :=
  (override_if_absent_policy keepRecord (by decide)).1

/-- C7 as amended: an absent vatRate is read as 0 and contributes zero
tax and the full gross price as base; a present vatRate - including a
negative one - is used exactly as given, and the concrete single-item
record at rate -50 accumulates tax -100 and subtotal 200. -/
theorem missing_rate_normalized (it : ReceiptItem) :
    (it.vatRate = none →
      itemRate it = 0
      ∧ taxAmountOf (itemPrice it) (itemRate it) = 0
      ∧ baseAmountOf (itemPrice it) (itemRate it) = itemPrice it)
    ∧ (∀ r : ℚ, it.vatRate = some r → itemRate it = r)
    ∧ (recalculateFinancials negRateRecord).tax = -100
    ∧ (recalculateFinancials negRateRecord).subtotal = 200 := by
  have hne : negRateRecord.items ≠ [] := by decide
  refine ⟨?_, ?_, ?_, ?_⟩
  case refine_3 =>
    rw [recalc_tax _ hne]
    norm_num [negRateRecord, mkRecord, negRateItem, calculatedTax,
      itemPrice, itemRate, taxAmountOf, round2, round_eq]
  case refine_4 =>
    rw [recalc_subtotal _ hne]
    norm_num [negRateRecord, mkRecord, negRateItem, calculatedSubtotal,
      itemPrice, itemRate, baseAmountOf, taxAmountOf, round2, round_eq]
  · intro h
    have hr : itemRate it = 0 := by rw [itemRate, h]; rfl
    rw [hr]
    refine ⟨rfl, taxAmountOf_rate_zero _, ?_⟩
    rw [baseAmountOf, taxAmountOf_rate_zero]
    ring
  · intro r h
    rw [itemRate, h]
    rfl

/-- Witness for C7 at the item with an absent rate. -/
theorem missing_rate_normalized_witness :
    itemRate noRateItem = 0
    ∧ taxAmountOf (itemPrice noRateItem) (itemRate noRateItem) = 0
    ∧ baseAmountOf (itemPrice noRateItem) (itemRate noRateItem)
        = itemPrice noRateItem :=
  (missing_rate_normalized noRateItem).1 rfl

/-- Counterexample for C7 as stated: the negative-rate item does not
contribute zero tax and its full gross price as base; the reconciler
accumulates a negative tax for it. -/
theorem negative_rate_not_normalized :
    taxAmountOf (itemPrice negRateItem) (itemRate negRateItem) ≠ 0
    ∧ baseAmountOf (itemPrice negRateItem) (itemRate negRateItem)
        ≠ itemPrice negRateItem
    ∧ (recalculateFinancials negRateRecord).tax ≠ 0 := by
  have hne : negRateRecord.items ≠ [] := by decide
  refine ⟨?_, ?_, ?_⟩
  · norm_num [negRateItem, itemPrice, itemRate, taxAmountOf]
  · norm_num [negRateItem, itemPrice, itemRate, baseAmountOf, taxAmountOf]
  · rw [recalc_tax _ hne]
    norm_num [negRateRecord, mkRecord, negRateItem, calculatedTax,
      itemPrice, itemRate, taxAmountOf, round2, round_eq]

/-- C2 as amended: only the AI success path runs the reconciler; a blank
credential or any failure outcome returns the regex fallback record
directly, without reconciliation. -/
theorem reconciler_applied_on_ai_success_only (md key : String)
    (d : ReceiptData) (outcome : AiOutcome)
    (hkey : trimChars key.data ≠ []) :
    parseReceiptWithGemini md key (AiOutcome.parsed d)
        = recalculateFinancials d
    ∧ parseReceiptWithGemini md "" outcome = parseViaRegex md
    ∧ (outcome = AiOutcome.thrown ∨ outcome = AiOutcome.emptyText
        ∨ outcome = AiOutcome.badJson →
        parseReceiptWithGemini md key outcome = parseViaRegex md) := by
  refine ⟨?_, ?_, ?_⟩
  · unfold parseReceiptWithGemini
    rw [if_neg hkey]
  · unfold parseReceiptWithGemini
    have h0 : trimChars "".data = [] := rfl
    rw [if_pos h0]
  · intro h
    unfold parseReceiptWithGemini
    rw [if_neg hkey]
    rcases h with h | h | h <;> subst h <;> rfl

/-- Witness for C2 at a concrete key, record and outcome. -/
theorem reconciler_applied_on_ai_success_only_witness :
    parseReceiptWithGemini "X" "k" (AiOutcome.parsed emptyItemsRecord)
      = recalculateFinancials emptyItemsRecord :=
  (reconciler_applied_on_ai_success_only "X" "k" emptyItemsRecord
    AiOutcome.thrown (by decide)).1

/-- Counterexample for C2 as stated: with no credential the candidate
record from the regex fallback is returned as-is, and it differs from its
reconciliation (the reconciler would attach a computed taxBreakdown). -/
theorem fallback_not_reconciled_counterexample :
    parseReceiptWithGemini "X" "" AiOutcome.thrown
      ≠ recalculateFinancials (parseViaRegex "X") := by
  intro h
  have hL : parseReceiptWithGemini "X" "" AiOutcome.thrown
      = parseViaRegex "X" := by
    unfold parseReceiptWithGemini
    have h0 : trimChars "".data = [] := rfl
    rw [if_pos h0]
  have hit : (parseViaRegex "X").items ≠ [] := by
    with_unfolding_all decide
  have hbd2 : (recalculateFinancials (parseViaRegex "X")).taxBreakdown
      = some (newBreakdown (parseViaRegex "X").items) := by
    rw [recalc_breakdown _ hit,
      show (parseViaRegex "X").taxBreakdown = none from rfl]
  rw [hL] at h
  have hcon := congrArg ReceiptData.taxBreakdown h
  rw [hbd2, show (parseViaRegex "X").taxBreakdown = none from rfl] at hcon
  exact Option.noConfusion hcon

/-- C8 as amended: the scenario text containing the item line SÜT 2 Adet
35,50 71,00 and the line TOPLAM: 71,00 yields under fallback extraction
exactly one item with totalPrice 71.00, total 71.00, tax 12.78 and
subtotal 58.22 - but the item's description is the whole prefix
"SÜT 2 Adet 35,50" (the lazy capture stops only before the trailing
price), not just "SÜT". -/
theorem fallback_scenario :
    (parseViaRegex scenarioText).items = [sutItem]
    ∧ sutItem.description = "SÜT 2 Adet 35,50"
    ∧ sutItem.totalPrice = 71
    ∧ (parseViaRegex scenarioText).total = 71
    ∧ (parseViaRegex scenarioText).tax = 1278 / 100
    ∧ (parseViaRegex scenarioText).subtotal = 5822 / 100 := by
  have ht : (parseViaRegex scenarioText).total = 71 := by
    rw [parseViaRegex_total_eq, totalViaRegex_scenario]
    norm_num
  have hx : (parseViaRegex scenarioText).tax = 1278 / 100 := by
    rw [parseViaRegex_tax_eq, ht]
    norm_num
  refine ⟨?_, rfl, rfl, ht, hx, ?_⟩
  · rw [parseViaRegex_items_eq, itemsViaRegex_scenario]
    simp
  · rw [parseViaRegex_subtotal_eq, ht, hx]
    norm_num

/-- Counterexample for C8 as stated: the single extracted item's
description is not "SÜT". -/
theorem fallback_scenario_description_counterexample :
    (parseViaRegex scenarioText).items.length = 1
    ∧ ∀ it ∈ (parseViaRegex scenarioText).items, it.description ≠ "SÜT" := by
  have hi : (parseViaRegex scenarioText).items = [sutItem] := by
    rw [parseViaRegex_items_eq, itemsViaRegex_scenario]
    simp
  rw [hi]
  refine ⟨rfl, ?_⟩
  intro it hit
  rw [List.mem_singleton.mp hit]
  decide

/-- C10: every item produced by the regex line scan has a strictly
positive totalPrice (the scan drops NaN and non-positive parses); when at
least one line matched, the output items are exactly the scanned ones,
and only when none matched is the single synthesized placeholder item
(which may carry a non-positive price) emitted. -/
theorem regex_items_positive_price (text : String) :
    (∀ it ∈ itemsViaRegex text, 0 < it.totalPrice)
    ∧ (itemsViaRegex text ≠ [] →
        (parseViaRegex text).items = itemsViaRegex text)
    ∧ (itemsViaRegex text = [] →
        (parseViaRegex text).items
          = [placeholderItem (if totalViaRegex text > 0
              then totalViaRegex text else 0)]
        ∧ (placeholderItem (if totalViaRegex text > 0
              then totalViaRegex text else 0)).description
            = "Ürün Bulunamadı") := by
  refine ⟨?_, ?_, ?_⟩
  · intro it hit
    obtain ⟨line, _hline, hsome⟩ := List.mem_filterMap.mp hit
    simp only [lineToItem] at hsome
    split at hsome
    · exact absurd hsome (by simp)
    · split at hsome
      · exact absurd hsome (by simp)
      · split at hsome
        · exact absurd hsome (by simp)
        · split at hsome
          · cases hsome
            assumption
          · exact absurd hsome (by simp)
  · intro h
    rw [parseViaRegex_items_eq, if_neg h]
  · intro h
    rw [parseViaRegex_items_eq, if_pos h, h]
    exact ⟨by simp, rfl⟩

/-- Witness for C10 at the plain item-line text. -/
theorem regex_items_positive_price_witness :
    0 < elmaItem.totalPrice
    ∧ (parseViaRegex itemLineText).items = itemsViaRegex itemLineText :=
  ⟨(regex_items_positive_price itemLineText).1 elmaItem
      (by rw [itemsViaRegex_itemLine]; exact List.mem_singleton.mpr rfl),
   (regex_items_positive_price itemLineText).2.1
      (by rw [itemsViaRegex_itemLine]; simp)⟩

/-- C6 as amended: the reconciler is idempotent on every record with a
non-empty items list whose total, tax and subtotal each avoid the
interval strictly between 0 and half a cent - i.e. any positive field
still rounds to a positive value.  (A positive total below 0.005 is
rounded to 0 by the first pass, so the second pass substitutes the
calculated total instead, breaking idempotence.) -/
theorem reconcile_idempotent_outside_half_cent (d : ReceiptData)
    (hitems : d.items ≠ [])
    (h1 : d.total > 0 → round2 d.total > 0)
    (h2 : d.tax > 0 → round2 d.tax > 0)
    (h3 : d.subtotal > 0 → round2 d.subtotal > 0) :
    recalculateFinancials (recalculateFinancials d)
      = recalculateFinancials d := by
  have hit : (recalculateFinancials d).items = d.items := recalc_items d
  have hne : (recalculateFinancials d).items ≠ [] := by
    rw [hit]; exact hitems
  have htot : (recalculateFinancials (recalculateFinancials d)).total
      = (recalculateFinancials d).total := by
    rw [recalc_total _ hne, hit]
    rw [show (recalculateFinancials d).total
      = round2 (if d.total > 0 then d.total else calculatedTotal d.items)
      from recalc_total d hitems]
    exact round2_step d.total (calculatedTotal d.items) h1
  have htax : (recalculateFinancials (recalculateFinancials d)).tax
      = (recalculateFinancials d).tax := by
    rw [recalc_tax _ hne, hit]
    rw [show (recalculateFinancials d).tax
      = round2 (if d.tax > 0 then d.tax else calculatedTax d.items)
      from recalc_tax d hitems]
    exact round2_step d.tax (calculatedTax d.items) h2
  have hsub : (recalculateFinancials (recalculateFinancials d)).subtotal
      = (recalculateFinancials d).subtotal := by
    rw [recalc_subtotal _ hne, hit]
    rw [show (recalculateFinancials d).subtotal
      = round2 (if d.subtotal > 0 then d.subtotal
          else calculatedSubtotal d.items)
      from recalc_subtotal d hitems]
    exact round2_step d.subtotal (calculatedSubtotal d.items) h3
  have hLbd : ∃ L, (recalculateFinancials d).taxBreakdown = some L
      ∧ L ≠ [] := by
    rw [recalc_breakdown d hitems]
    rcases hdb : d.taxBreakdown with _ | l
    · exact ⟨newBreakdown d.items, rfl, newBreakdown_ne_nil _ hitems⟩
    · by_cases hl : l = []
      · exact ⟨newBreakdown d.items, by dsimp only; rw [if_pos hl],
          newBreakdown_ne_nil _ hitems⟩
      · exact ⟨l, by dsimp only; rw [if_neg hl], hl⟩
  obtain ⟨L, hL, hLne⟩ := hLbd
  have hbd : (recalculateFinancials (recalculateFinancials d)).taxBreakdown
      = (recalculateFinancials d).taxBreakdown := by
    rw [recalc_breakdown _ hne, hL]
    dsimp only
    rw [if_neg hLne]
  obtain ⟨f1, f2, f3, f4, f5, f6, f7, _, f9, f10, f11, f12, f13, f14, f15⟩ :=
    recalc_frame (recalculateFinancials d)
  exact ReceiptData.ext f1 f2 f3 f4 f5 f6 f7
    (recalc_items (recalculateFinancials d)) hsub htax hbd htot f9 f10 f11
    f12 f13 f14 f15

/-- Witness for C6 at a record with totals 60, 9 and 50. -/
theorem reconcile_idempotent_witness :
    recalculateFinancials (recalculateFinancials keepRecord)
      = recalculateFinancials keepRecord :=
  reconcile_idempotent_outside_half_cent keepRecord (by decide)
    (fun _ => by norm_num [keepRecord, mkRecord, round2, round_eq])
    (fun _ => by norm_num [keepRecord, mkRecord, round2, round_eq])
    (fun _ => by norm_num [keepRecord, mkRecord, round2, round_eq])

/-- Counterexample for C6 as stated: a record whose positive total 0.004
rounds to 0 in the first pass, so the second pass substitutes the
calculated item total 100 and the result changes. -/
theorem reconcile_not_idempotent :
    recalculateFinancials (recalculateFinancials fragileRecord)
      ≠ recalculateFinancials fragileRecord := by
  have hne : fragileRecord.items ≠ [] := by decide
  have ha : (recalculateFinancials fragileRecord).total = 0 := by
    rw [recalc_total _ hne]
    norm_num [fragileRecord, mkRecord, round2, round_eq]
  have hne2 : (recalculateFinancials fragileRecord).items ≠ [] := by
    rw [recalc_items]; exact hne
  have hb : (recalculateFinancials
      (recalculateFinancials fragileRecord)).total = 100 := by
    rw [recalc_total _ hne2, ha, recalc_items]
    norm_num [fragileRecord, mkRecord, item100at0, calculatedTotal,
      itemPrice, round2, round_eq]
  intro h
  rw [h, ha] at hb
  exact absurd hb (by norm_num)

/-- C4 as amended: for a record with at least one item, non-negative item
prices and rates, and no supplied taxBreakdown, every monetary value of
the reconciler's output - total, tax, subtotal and each computed
breakdown entry's base and amount - is non-negative and rounded to
exactly two decimal places (a supplied total is used only when positive,
so no sign condition on the supplied totals is needed).  The regex
fallback path, returned without reconciliation, does not have this
property: its flat-rate tax is in general not two-decimal. -/
theorem reconciler_output_rounded_nonneg (d : ReceiptData)
    (hitems : d.items ≠ [])
    (hpr : ∀ it ∈ d.items, 0 ≤ itemPrice it ∧ 0 ≤ itemRate it)
    (hbd : d.taxBreakdown = none ∨ d.taxBreakdown = some []) :
    twoDecimals (recalculateFinancials d).total
    ∧ twoDecimals (recalculateFinancials d).tax
    ∧ twoDecimals (recalculateFinancials d).subtotal
    ∧ 0 ≤ (recalculateFinancials d).total
    ∧ 0 ≤ (recalculateFinancials d).tax
    ∧ 0 ≤ (recalculateFinancials d).subtotal
    ∧ ∀ e ∈ ((recalculateFinancials d).taxBreakdown.getD []),
        twoDecimals e.base ∧ twoDecimals e.amount
          ∧ 0 ≤ e.base ∧ 0 ≤ e.amount := by
  have hsome : (recalculateFinancials d).taxBreakdown
      = some (newBreakdown d.items) := by
    rw [recalc_breakdown d hitems]
    rcases hbd with h | h <;> rw [h]
    dsimp only
    rw [if_pos rfl]
  refine ⟨?_, ?_, ?_, ?_, ?_, ?_, ?_⟩
  · rw [recalc_total d hitems]; exact round2_twoDecimals _
  · rw [recalc_tax d hitems]; exact round2_twoDecimals _
  · rw [recalc_subtotal d hitems]; exact round2_twoDecimals _
  · rw [recalc_total d hitems]
    apply round2_nonneg
    split
    · next hpos => exact le_of_lt hpos
    · exact listSum_map_nonneg _ _ (fun it hit => (hpr it hit).1)
  · rw [recalc_tax d hitems]
    apply round2_nonneg
    split
    · next hpos => exact le_of_lt hpos
    · exact listSum_map_nonneg _ _
        (fun it hit => taxAmountOf_nonneg (hpr it hit).1 (hpr it hit).2)
  · rw [recalc_subtotal d hitems]
    apply round2_nonneg
    split
    · next hpos => exact le_of_lt hpos
    · exact listSum_map_nonneg _ _
        (fun it hit => baseAmountOf_nonneg (hpr it hit).1 (hpr it hit).2)
  · intro e he
    rw [hsome] at he
    simp only [Option.getD_some] at he
    obtain ⟨r, _hr, rfl⟩ := List.mem_map.mp he
    refine ⟨round2_twoDecimals _, round2_twoDecimals _, ?_, ?_⟩
    · apply round2_nonneg
      exact listSum_map_nonneg _ _ (fun it hit =>
        baseAmountOf_nonneg (hpr it (List.mem_of_mem_filter hit)).1
          (hpr it (List.mem_of_mem_filter hit)).2)
    · apply round2_nonneg
      exact listSum_map_nonneg _ _ (fun it hit =>
        taxAmountOf_nonneg (hpr it (List.mem_of_mem_filter hit)).1
          (hpr it (List.mem_of_mem_filter hit)).2)

/-- Witness for C4 at the two-rate record. -/
theorem reconciler_output_rounded_nonneg_witness :
    twoDecimals (recalculateFinancials twoRateRecord).total
    ∧ 0 ≤ (recalculateFinancials twoRateRecord).tax :=
  ⟨(reconciler_output_rounded_nonneg twoRateRecord (by decide)
      (by decide) (Or.inl rfl)).1,
   (reconciler_output_rounded_nonneg twoRateRecord (by decide)
      (by decide) (Or.inl rfl)).2.2.2.2.1⟩

/-- Counterexample for C4 as stated: on the no-credential fallback path
the output tax 10.01 times 0.18 = 1.8018 is not rounded to two decimal
places. -/
theorem fallback_tax_not_two_decimals :
    ¬ twoDecimals
      (parseReceiptWithGemini "X\nTOPLAM: 10,01" "" AiOutcome.thrown).tax := by
  have hL : parseReceiptWithGemini "X\nTOPLAM: 10,01" "" AiOutcome.thrown
      = parseViaRegex "X\nTOPLAM: 10,01" := by
    unfold parseReceiptWithGemini
    have h0 : trimChars "".data = [] := rfl
    rw [if_pos h0]
  have htot : totalViaRegex "X\nTOPLAM: 10,01" = 1001 / 100 := by
    set_option maxRecDepth 2048 in with_unfolding_all decide
  have hit : itemsViaRegex "X\nTOPLAM: 10,01" = [] := by
    set_option maxRecDepth 2048 in with_unfolding_all decide
  have htax : (parseViaRegex "X\nTOPLAM: 10,01").tax = 9009 / 5000 := by
    rw [parseViaRegex_tax_eq, parseViaRegex_total_eq, htot, hit]
    norm_num
  rw [hL, htax]
  with_unfolding_all decide

/-- C1 as amended: for every record with at least one item whose input
taxBreakdown is missing or empty and whose input subtotal and tax are not
positive, the reconciler attaches the computed breakdown, whose entries
are exactly the distinct item rates, and the breakdown sums match the
output subtotal and tax within 0.01 times the number of distinct rates.
(When the input carries a non-empty taxBreakdown it is kept verbatim, and
positive input subtotal/tax are kept, so the partition sums need not
match in those cases.) -/
theorem breakdown_partition_of_computed (d : ReceiptData)
    (hitems : d.items ≠ [])
    (hbd : d.taxBreakdown = none ∨ d.taxBreakdown = some [])
    (hsub : ¬ d.subtotal > 0) (htax : ¬ d.tax > 0) :
    ∃ bd, (recalculateFinancials d).taxBreakdown = some bd
      ∧ bd.map TaxBreakdown.rate = dedupKeepFirst (d.items.map itemRate)
      ∧ |(bd.map TaxBreakdown.base).sum
          - (recalculateFinancials d).subtotal| ≤ (bd.length : ℚ) / 100
      ∧ |(bd.map TaxBreakdown.amount).sum
          - (recalculateFinancials d).tax| ≤ (bd.length : ℚ) / 100 := by
  have hsome : (recalculateFinancials d).taxBreakdown
      = some (newBreakdown d.items) := by
    rw [recalc_breakdown d hitems]
    rcases hbd with h | h <;> rw [h]
    dsimp only
    rw [if_pos rfl]
  have hlen : (newBreakdown d.items).length
      = (dedupKeepFirst (d.items.map itemRate)).length :=
    List.length_map _ _
  have hk : (1 : ℚ) ≤ ((dedupKeepFirst (d.items.map itemRate)).length : ℚ) := by
    have h1 : d.items.map itemRate ≠ [] :=
      fun he => hitems (List.map_eq_nil_iff.mp he)
    have h2 := dedupKeepFirst_ne_nil _ h1
    have h3 : 0 < (dedupKeepFirst (d.items.map itemRate)).length :=
      List.length_pos.mpr h2
    exact_mod_cast h3
  refine ⟨newBreakdown d.items, hsome, ?_, ?_, ?_⟩
  · simp only [newBreakdown, List.map_map]
    have hfun : (TaxBreakdown.rate ∘ fun r =>
        ({ rate := r, amount := round2 (rateAmount d.items r),
           base := round2 (rateBase d.items r) } : TaxBreakdown))
        = fun r => r := funext fun r => rfl
    rw [hfun]
    simp
  · have hbase : (newBreakdown d.items).map TaxBreakdown.base
        = (dedupKeepFirst (d.items.map itemRate)).map
            (fun r => round2 (rateBase d.items r)) := by
      simp [newBreakdown, List.map_map, Function.comp]
    have hsum : ((dedupKeepFirst (d.items.map itemRate)).map
        (rateBase d.items)).sum = calculatedSubtotal d.items := by
      simp only [rateBase, calculatedSubtotal]
      exact sum_over_dedup d.items
    have hA := abs_sum_round2 (dedupKeepFirst (d.items.map itemRate))
      (rateBase d.items)
    rw [hsum] at hA
    have hB := abs_round2_sub (calculatedSubtotal d.items)
    have hout : (recalculateFinancials d).subtotal
        = round2 (calculatedSubtotal d.items) := by
      rw [recalc_subtotal d hitems, if_neg hsub]
    rw [hbase, hout, hlen]
    have htri := abs_sub_le
      (((dedupKeepFirst (d.items.map itemRate)).map
        (fun r => round2 (rateBase d.items r))).sum)
      (calculatedSubtotal d.items)
      (round2 (calculatedSubtotal d.items))
    rw [abs_sub_comm (calculatedSubtotal d.items)
      (round2 (calculatedSubtotal d.items))] at htri
    linarith
  · have hamt : (newBreakdown d.items).map TaxBreakdown.amount
        = (dedupKeepFirst (d.items.map itemRate)).map
            (fun r => round2 (rateAmount d.items r)) := by
      simp [newBreakdown, List.map_map, Function.comp]
    have hsum : ((dedupKeepFirst (d.items.map itemRate)).map
        (rateAmount d.items)).sum = calculatedTax d.items := by
      simp only [rateAmount, calculatedTax]
      exact sum_over_dedup d.items
    have hA := abs_sum_round2 (dedupKeepFirst (d.items.map itemRate))
      (rateAmount d.items)
    rw [hsum] at hA
    have hB := abs_round2_sub (calculatedTax d.items)
    have hout : (recalculateFinancials d).tax
        = round2 (calculatedTax d.items) := by
      rw [recalc_tax d hitems, if_neg htax]
    rw [hamt, hout, hlen]
    have htri := abs_sub_le
      (((dedupKeepFirst (d.items.map itemRate)).map
        (fun r => round2 (rateAmount d.items r))).sum)
      (calculatedTax d.items)
      (round2 (calculatedTax d.items))
    rw [abs_sub_comm (calculatedTax d.items)
      (round2 (calculatedTax d.items))] at htri
    linarith

/-- Witness for C1 at the two-rate record. -/
theorem breakdown_partition_of_computed_witness :
    ∃ bd, (recalculateFinancials twoRateRecord).taxBreakdown = some bd
      ∧ bd.map TaxBreakdown.rate
          = dedupKeepFirst (twoRateRecord.items.map itemRate)
      ∧ |(bd.map TaxBreakdown.base).sum
          - (recalculateFinancials twoRateRecord).subtotal|
          ≤ (bd.length : ℚ) / 100
      ∧ |(bd.map TaxBreakdown.amount).sum
          - (recalculateFinancials twoRateRecord).tax|
          ≤ (bd.length : ℚ) / 100 :=
  breakdown_partition_of_computed twoRateRecord (by decide) (Or.inl rfl)
    (by norm_num [twoRateRecord, mkRecord])
    (by norm_num [twoRateRecord, mkRecord])

/-- Counterexample for C1 as stated: when the input record carries a
non-empty taxBreakdown, that breakdown is kept verbatim, and its base sum
999 is nowhere near the output subtotal 83.33. -/
theorem breakdown_partition_kept_counterexample :
    ¬ (abs (((((recalculateFinancials keptBreakdownRecord).taxBreakdown.getD
          []).map TaxBreakdown.base).sum
        - (recalculateFinancials keptBreakdownRecord).subtotal))
        ≤ ((((recalculateFinancials keptBreakdownRecord).taxBreakdown.getD
          []).length : ℕ) : ℚ) / 100) := by
  have hne : keptBreakdownRecord.items ≠ [] := by decide
  have hbd : (recalculateFinancials keptBreakdownRecord).taxBreakdown
      = some [TaxBreakdown.mk 20 999 999] := by
    rw [recalc_breakdown _ hne,
      show keptBreakdownRecord.taxBreakdown
        = some [TaxBreakdown.mk 20 999 999] from rfl]
    dsimp only
    rw [if_neg (by decide)]
  have hsub : (recalculateFinancials keptBreakdownRecord).subtotal
      = 8333 / 100 := by
    rw [recalc_subtotal _ hne]
    norm_num [keptBreakdownRecord, mkRecord, item100at20,
      calculatedSubtotal, itemPrice, itemRate, baseAmountOf, taxAmountOf,
      round2, round_eq]
  rw [hbd, hsub]
  simp only [Option.getD_some, List.map_cons, List.map_nil, List.sum_cons,
    List.sum_nil, List.length_cons, List.length_nil]
  intro hcontra
  rw [abs_of_pos (by norm_num)] at hcontra
  norm_num at hcontra
